import Mathlib

/-!
Verification development for the traffic-service route-optimization core.

The definitions below are shallow embeddings of the TypeScript sources:
GoogleMapsService (fallback sequencer, Haversine distance, greedy
nearest-neighbor ordering), RouteOptimizationService (lifecycle
orchestration, savings metrics, route updates) and
RouteOptimizationGateway (authenticated real-time connections).

Conventions: JavaScript numbers are modelled as real numbers, values that
the code produces with Math.round are integers, timestamps are epoch
milliseconds as integers, and the ISO-string rendering of a Date is
elided (a waypoint carries its arrival instant as an integer).
-/

namespace Traffic

open Real

/-- A caller-supplied geographic stop, as in the stops arrays of the
service: latitude, longitude and a display address. -/
structure Stop where
  latitude : ℝ
  longitude : ℝ
  address : String

/-- A waypoint of an optimized route: a stop together with its estimated
arrival instant (epoch milliseconds; the code stores an ISO string of
this instant). -/
structure Waypoint where
  latitude : ℝ
  longitude : ℝ
  address : String
  estimatedArrival : ℤ

/-- The stop data carried by a waypoint, forgetting the arrival time. -/
def Waypoint.toStop (w : Waypoint) : Stop :=
  { latitude := w.latitude, longitude := w.longitude, address := w.address }

/-- Result shape of GoogleMapsService.optimizeRoute: total distance,
total duration in seconds, ordered waypoints and a polyline string. -/
structure OptimizedRoute where
  totalDistance : ℝ
  totalDuration : ℝ
  waypoints : List Waypoint
  polyline : String

/-- GoogleMapsService.toRadians (also duplicated verbatim in
RouteOptimizationService): degrees * (PI / 180). -/
noncomputable def toRadians (degrees : ℝ) : ℝ :=
  degrees * (π / 180)

/-- Two-argument arctangent with the JavaScript Math.atan2 semantics on
real inputs: the angle of the point (x, y), in (-pi, pi], with
atan2 0 0 = 0. -/
noncomputable def atan2 (y x : ℝ) : ℝ :=
  if 0 < x then Real.arctan (y / x)
  else if x < 0 then
    (if 0 ≤ y then Real.arctan (y / x) + π else Real.arctan (y / x) - π)
  else
    (if 0 < y then π / 2 else if y < 0 then -(π / 2) else 0)

/-- GoogleMapsService.calculateHaversineDistance: great-circle distance
in meters between two latitude/longitude pairs, Earth radius 6371000 m.
The same function appears verbatim in RouteOptimizationService. -/
noncomputable def calculateHaversineDistance (lat1 lon1 lat2 lon2 : ℝ) : ℝ :=
  let R : ℝ := 6371000
  let dLat := toRadians (lat2 - lat1)
  let dLon := toRadians (lon2 - lon1)
  let a := Real.sin (dLat / 2) * Real.sin (dLat / 2) +
    Real.cos (toRadians lat1) * Real.cos (toRadians lat2) *
    Real.sin (dLon / 2) * Real.sin (dLon / 2)
  let c := 2 * atan2 (Real.sqrt a) (Real.sqrt (1 - a))
  R * c

theorem arctan_nonneg {t : ℝ} (ht : 0 ≤ t) : 0 ≤ Real.arctan t := by
  have h := Real.arctan_strictMono.monotone ht
  rwa [Real.arctan_zero] at h

theorem atan2_nonneg {y x : ℝ} (hy : 0 ≤ y) : 0 ≤ atan2 y x := by
  unfold atan2
  split_ifs with h1 h2 h3 h4
  · exact arctan_nonneg (div_nonneg hy (le_of_lt h1))
  · have h := Real.neg_pi_div_two_lt_arctan (y / x)
    have hπ := Real.pi_pos
    linarith
  · have hπ := Real.pi_pos
    linarith
  · linarith
  · exact le_refl 0

theorem calculateHaversineDistance_nonneg (lat1 lon1 lat2 lon2 : ℝ) :
    0 ≤ calculateHaversineDistance lat1 lon1 lat2 lon2 := by
  simp only [calculateHaversineDistance]
  have h := atan2_nonneg
    (x := Real.sqrt (1 -
      (Real.sin (toRadians (lat2 - lat1) / 2) * Real.sin (toRadians (lat2 - lat1) / 2) +
        Real.cos (toRadians lat1) * Real.cos (toRadians lat2) *
        Real.sin (toRadians (lon2 - lon1) / 2) * Real.sin (toRadians (lon2 - lon1) / 2))))
    (Real.sqrt_nonneg
      (Real.sin (toRadians (lat2 - lat1) / 2) * Real.sin (toRadians (lat2 - lat1) / 2) +
        Real.cos (toRadians lat1) * Real.cos (toRadians lat2) *
        Real.sin (toRadians (lon2 - lon1) / 2) * Real.sin (toRadians (lon2 - lon1) / 2)))
  nlinarith [h]

/-! Greedy nearest-neighbor stop ordering (GoogleMapsService.optimizeStopOrder).

The selection loop of the source scans the remaining stops left to right,
keeping the index of the strictly smallest distance seen so far, starting
from shortestDistance = Infinity. It is embedded generically over any
linearly ordered distance type; the service instantiates it with the real
Haversine distance. Infinity is modelled by the top element of WithTop. -/

/-- One pass of the selection loop: the accumulator holds the shortest
distance seen so far (initially Infinity = top) and the index where it was
seen; an element replaces the accumulator exactly when its distance is
strictly smaller. -/
def findNearestAcc {α : Type} [LinearOrder α] (acc : WithTop α × ℕ) :
    List (ℕ × α) → WithTop α × ℕ
  | [] => acc
  | p :: ps =>
      findNearestAcc (if (p.2 : WithTop α) < acc.1 then ((p.2 : WithTop α), p.1) else acc) ps

/-- Index of the nearest remaining stop chosen by the selection loop. -/
def findNearestIdx {α : Type} [LinearOrder α] (dist : Stop → Stop → α) (cur : Stop)
    (rem : List Stop) : ℕ :=
  (findNearestAcc ((⊤ : WithTop α), 0) ((rem.map (dist cur)).enum)).2

theorem findNearestAcc_spec {α : Type} [LinearOrder α] (ds : List α) :
    ∀ (n : ℕ) (acc : WithTop α × ℕ),
      (¬ ds.minimum < acc.1 → findNearestAcc acc (List.enumFrom n ds) = acc) ∧
      (ds.minimum < acc.1 →
        ∃ k m, ds.get? k = some m ∧ (m : WithTop α) = ds.minimum ∧
          findNearestAcc acc (List.enumFrom n ds) = ((m : WithTop α), n + k) ∧
          ∀ j mj, j < k → ds.get? j = some mj → m < mj) := by
  induction ds with
  | nil =>
      intro n acc
      refine ⟨fun _ => rfl, fun h => absurd h (by simp [List.minimum_nil, not_top_lt])⟩
  | cons d ds ih =>
      intro n acc
      have hmin : (d :: ds).minimum = min (d : WithTop α) ds.minimum := List.minimum_cons d ds
      have hstep : findNearestAcc acc (List.enumFrom n (d :: ds)) =
          findNearestAcc (if (d : WithTop α) < acc.1 then ((d : WithTop α), n) else acc)
            (List.enumFrom (n + 1) ds) := rfl
      by_cases h1 : (d : WithTop α) < acc.1
      · by_cases h2 : ds.minimum < (d : WithTop α)
        · -- the minimum of the tail wins over the head
          have hmin2 : (d :: ds).minimum = ds.minimum := by
            rw [hmin, min_eq_right (le_of_lt h2)]
          obtain ⟨k, m, hget, hm, hres, hstrict⟩ :=
            (ih (n + 1) ((d : WithTop α), n)).2 h2
          constructor
          · intro hcon
            exact absurd (by rw [hmin2]; exact lt_trans h2 h1) hcon
          · intro _
            refine ⟨k + 1, m, by simpa using hget, by rw [hm, hmin2], ?_, ?_⟩
            · rw [hstep, if_pos h1, hres]
              congr 1
              omega
            · intro j mj hj hgj
              cases j with
              | zero =>
                  simp only [List.get?_cons_zero, Option.some.injEq] at hgj
                  subst hgj
                  exact WithTop.coe_lt_coe.mp (by rw [hm]; exact h2)
              | succ j2 =>
                  exact hstrict j2 mj (by omega) (by simpa using hgj)
        · -- the head is already minimal
          have hled : (d : WithTop α) ≤ ds.minimum := not_lt.mp h2
          have hmin2 : (d :: ds).minimum = (d : WithTop α) := by
            rw [hmin, min_eq_left hled]
          have hres := (ih (n + 1) ((d : WithTop α), n)).1 h2
          constructor
          · intro hcon
            exact absurd (by rw [hmin2]; exact h1) hcon
          · intro _
            refine ⟨0, d, rfl, hmin2.symm, ?_, ?_⟩
            · rw [hstep, if_pos h1, hres]
              simp
            · intro j mj hj _
              omega
      · -- the head does not improve on the accumulator
        have hacc : acc.1 ≤ (d : WithTop α) := not_lt.mp h1
        by_cases hm : ds.minimum < acc.1
        · have hmlt : ds.minimum < (d : WithTop α) := lt_of_lt_of_le hm hacc
          have hmin2 : (d :: ds).minimum = ds.minimum := by
            rw [hmin, min_eq_right (le_of_lt hmlt)]
          obtain ⟨k, m, hget, hmv, hres, hstrict⟩ := (ih (n + 1) acc).2 hm
          constructor
          · intro hcon
            exact absurd (by rw [hmin2]; exact hm) hcon
          · intro _
            refine ⟨k + 1, m, by simpa using hget, by rw [hmv, hmin2], ?_, ?_⟩
            · rw [hstep, if_neg h1, hres]
              congr 1
              omega
            · intro j mj hj hgj
              cases j with
              | zero =>
                  simp only [List.get?_cons_zero, Option.some.injEq] at hgj
                  subst hgj
                  exact WithTop.coe_lt_coe.mp (by rw [hmv]; exact hmlt)
              | succ j2 =>
                  exact hstrict j2 mj (by omega) (by simpa using hgj)
        · have hres := (ih (n + 1) acc).1 hm
          constructor
          · intro _
            rw [hstep, if_neg h1, hres]
          · intro hlt
            rw [hmin] at hlt
            rcases min_lt_iff.mp hlt with h | h
            · exact absurd h h1
            · exact absurd h hm

theorem findNearestIdx_spec {α : Type} [LinearOrder α] (dist : Stop → Stop → α) (cur : Stop)
    (rem : List Stop) (h : rem ≠ []) :
    ∃ k m, findNearestIdx dist cur rem = k ∧ (rem.map (dist cur)).get? k = some m ∧
      (m : WithTop α) = (rem.map (dist cur)).minimum ∧
      ∀ j mj, j < k → (rem.map (dist cur)).get? j = some mj → m < mj := by
  have hds : rem.map (dist cur) ≠ [] := by
    simpa using h
  have htop : (rem.map (dist cur)).minimum < (⊤ : WithTop α) :=
    lt_top_iff_ne_top.mpr (List.minimum_ne_top_of_ne_nil hds)
  obtain ⟨k, m, hget, hm, hres, hstrict⟩ :=
    (findNearestAcc_spec (rem.map (dist cur)) 0 ((⊤ : WithTop α), 0)).2 htop
  refine ⟨k, m, ?_, hget, hm, hstrict⟩
  unfold findNearestIdx
  rw [show (rem.map (dist cur)).enum = List.enumFrom 0 (rem.map (dist cur)) from rfl, hres]
  simp

theorem findNearestIdx_lt_length {α : Type} [LinearOrder α] (dist : Stop → Stop → α)
    (cur : Stop) (rem : List Stop) (h : rem ≠ []) :
    findNearestIdx dist cur rem < rem.length := by
  obtain ⟨k, m, hk, hget, -, -⟩ := findNearestIdx_spec dist cur rem h
  rw [hk]
  have := List.get?_eq_some.mp hget
  obtain ⟨hlt, -⟩ := this
  simpa using hlt

/-- Index of the first element attaining the minimum of a list; this is
the specification-level description of the selection loop: the minimum
wins, ties broken in favor of the first-encountered minimum. -/
def firstMinIdx {α : Type} [LinearOrder α] : List α → ℕ
  | [] => 0
  | [_] => 0
  | a :: b :: rest =>
      if (a : WithTop α) ≤ (b :: rest).minimum then 0 else firstMinIdx (b :: rest) + 1

theorem firstMinIdx_unique {α : Type} [LinearOrder α] :
    ∀ (l : List α) (k : ℕ) (m : α), l.get? k = some m →
      (m : WithTop α) = l.minimum →
      (∀ j mj, j < k → l.get? j = some mj → m < mj) → k = firstMinIdx l := by
  intro l
  induction l with
  | nil => intro k m hget; simp at hget
  | cons a rest ih =>
      intro k m hget hm hstrict
      cases k with
      | zero =>
          have ham : a = m := by simpa using hget
          subst ham
          cases rest with
          | nil => rfl
          | cons b rest2 =>
              have hle : (a : WithTop α) ≤ (b :: rest2).minimum := by
                have h0 := List.minimum_cons a (b :: rest2)
                rw [h0] at hm
                rw [hm]
                exact min_le_right _ _
              simp only [firstMinIdx]
              rw [if_pos hle]
      | succ k2 =>
          have hget2 : rest.get? k2 = some m := by simpa using hget
          have hma : m < a := hstrict 0 a (by omega) rfl
          have hrest : rest ≠ [] := by
            intro hcon
            rw [hcon] at hget2
            simp at hget2
          have hmlt : (m : WithTop α) < (a : WithTop α) := WithTop.coe_lt_coe.mpr hma
          have hminr : (m : WithTop α) = rest.minimum := by
            rw [List.minimum_cons] at hm
            rcases le_or_lt (a : WithTop α) rest.minimum with hle | hlt
            · rw [min_eq_left hle] at hm
              exact absurd hm (ne_of_lt hmlt)
            · rwa [min_eq_right (le_of_lt hlt)] at hm
          have hk2 : k2 = firstMinIdx rest := by
            refine ih k2 m hget2 hminr ?_
            intro j mj hj hgj
            exact hstrict (j + 1) mj (by omega) (by simpa using hgj)
          cases rest with
          | nil => exact absurd rfl hrest
          | cons b rest2 =>
              have hnle : ¬ (a : WithTop α) ≤ (b :: rest2).minimum := by
                rw [← hminr]
                exact not_le.mpr hmlt
              simp only [firstMinIdx]
              rw [if_neg hnle]
              omega

theorem findNearestIdx_eq_firstMinIdx {α : Type} [LinearOrder α] (dist : Stop → Stop → α)
    (cur : Stop) (rem : List Stop) (h : rem ≠ []) :
    findNearestIdx dist cur rem = firstMinIdx (rem.map (dist cur)) := by
  obtain ⟨k, m, hk, hget, hm, hstrict⟩ := findNearestIdx_spec dist cur rem h
  rw [hk]
  exact firstMinIdx_unique (rem.map (dist cur)) k m hget hm hstrict

/-- Specification-level selection following the words of the spec: among
the remaining stops pick the one at minimum distance from the current
stop, the first-encountered minimum winning ties; the result is the
chosen stop together with the remaining stops in their original relative
order with only that occurrence removed. -/
def pickFirstMin {α : Type} [LinearOrder α] (dist : Stop → Stop → α) (cur : Stop) :
    List Stop → Option (Stop × List Stop)
  | [] => none
  | s :: rest =>
      match pickFirstMin dist cur rest with
      | none => some (s, rest)
      | some (t, rest1) =>
          if dist cur s ≤ dist cur t then some (s, rest) else some (t, s :: rest1)

theorem getD_map {α β : Type} (f : α → β) :
    ∀ (l : List α) (n : ℕ) (d : α), (l.map f).getD n (f d) = f (l.getD n d) := by
  intro l
  induction l with
  | nil => intro n d; rfl
  | cons a rest ih =>
      intro n d
      cases n with
      | zero => rfl
      | succ n2 => exact ih n2 d

theorem firstMinIdx_lt_length {α : Type} [LinearOrder α] :
    ∀ (l : List α), l ≠ [] → firstMinIdx l < l.length := by
  intro l
  induction l with
  | nil => intro h; exact absurd rfl h
  | cons a rest ih =>
      intro _
      cases rest with
      | nil => simp [firstMinIdx]
      | cons b rest2 =>
          simp only [firstMinIdx]
          split_ifs
          · simp
          · have := ih (by simp)
            simp only [List.length_cons] at this ⊢
            omega

theorem getD_coe_minimum {α : Type} [LinearOrder α] :
    ∀ (l : List α) (d : α), l ≠ [] →
      ((l.getD (firstMinIdx l) d : α) : WithTop α) = l.minimum := by
  intro l
  induction l with
  | nil => intro d h; exact absurd rfl h
  | cons a rest ih =>
      intro d _
      cases rest with
      | nil => simp [firstMinIdx, List.minimum_singleton]
      | cons b rest2 =>
          have hmin := List.minimum_cons a (b :: rest2)
          simp only [firstMinIdx]
          split_ifs with hle
          · simpa [hmin] using (min_eq_left hle).symm
          · have hlt : (b :: rest2).minimum < (a : WithTop α) := not_le.mp hle
            have hrec := ih d (by simp)
            simpa [hmin, min_eq_right (le_of_lt hlt)] using hrec

theorem pickFirstMin_eq {α : Type} [LinearOrder α] (dist : Stop → Stop → α) (cur : Stop) :
    ∀ (rem : List Stop), rem ≠ [] →
      pickFirstMin dist cur rem =
        some (rem.getD (firstMinIdx (rem.map (dist cur))) cur,
              rem.eraseIdx (firstMinIdx (rem.map (dist cur)))) := by
  intro rem
  induction rem with
  | nil => intro h; exact absurd rfl h
  | cons s rest ih =>
      intro _
      cases rest with
      | nil => rfl
      | cons b rest2 =>
          have hrest : (b :: rest2) ≠ [] := by simp
          have hmap : ((b :: rest2).map (dist cur)) ≠ [] := by simp
          have ihr := ih hrest
          set j := firstMinIdx ((b :: rest2).map (dist cur)) with hj
          have hbridge : ((dist cur ((b :: rest2).getD j cur) : α) : WithTop α) =
              ((b :: rest2).map (dist cur)).minimum := by
            rw [← getD_map (dist cur) (b :: rest2) j cur]
            exact getD_coe_minimum ((b :: rest2).map (dist cur)) (dist cur cur) hmap
          have houter : pickFirstMin dist cur (s :: b :: rest2) =
              (match pickFirstMin dist cur (b :: rest2) with
               | none => some (s, b :: rest2)
               | some (t, rest1) =>
                   if dist cur s ≤ dist cur t then some (s, b :: rest2)
                   else some (t, s :: rest1)) := rfl
          rw [houter, ihr]
          show (if dist cur s ≤ dist cur ((b :: rest2).getD j cur) then some (s, b :: rest2)
              else some ((b :: rest2).getD j cur, s :: (b :: rest2).eraseIdx j)) = _
          by_cases hle : ((dist cur s : α) : WithTop α) ≤ ((b :: rest2).map (dist cur)).minimum
          · rw [if_pos (by rw [← hbridge] at hle; exact WithTop.coe_le_coe.mp hle)]
            have hidx : firstMinIdx ((s :: b :: rest2).map (dist cur)) = 0 := by
              simp only [List.map_cons, firstMinIdx]
              rw [if_pos (by simpa using hle)]
            rw [hidx]
            rfl
          · have hgt : ¬ dist cur s ≤ dist cur ((b :: rest2).getD j cur) := by
              intro hc
              exact hle (by rw [← hbridge]; exact WithTop.coe_le_coe.mpr hc)
            rw [if_neg hgt]
            have hidx : firstMinIdx ((s :: b :: rest2).map (dist cur)) = j + 1 := by
              simp only [List.map_cons, firstMinIdx]
              rw [if_neg (by simpa using hle)]
              rw [hj, List.map_cons]
            rw [hidx]
            rfl

theorem pickFirstMin_length {α : Type} [LinearOrder α] (dist : Stop → Stop → α) (cur : Stop) :
    ∀ (rem : List Stop) (t : Stop) (r1 : List Stop),
      pickFirstMin dist cur rem = some (t, r1) → r1.length + 1 = rem.length := by
  intro rem
  induction rem with
  | nil => intro t r1 h; simp [pickFirstMin] at h
  | cons s rest ih =>
      intro t r1 h
      have hstep : pickFirstMin dist cur (s :: rest) =
          (match pickFirstMin dist cur rest with
           | none => some (s, rest)
           | some (t2, rest1) =>
               if dist cur s ≤ dist cur t2 then some (s, rest)
               else some (t2, s :: rest1)) := rfl
      cases hrec : pickFirstMin dist cur rest with
      | none =>
          have h2 : some (s, rest) = some (t, r1) := by
            rw [hstep, hrec] at h
            exact h
          simp only [Option.some.injEq, Prod.mk.injEq] at h2
          obtain ⟨-, h3⟩ := h2
          rw [← h3]
          simp
      | some p =>
          obtain ⟨t2, r2⟩ := p
          have hlen := ih t2 r2 hrec
          have h2 : (if dist cur s ≤ dist cur t2 then some (s, rest)
              else some (t2, s :: r2)) = some (t, r1) := by
            rw [hstep, hrec] at h
            exact h
          by_cases hc : dist cur s ≤ dist cur t2
          · rw [if_pos hc] at h2
            simp only [Option.some.injEq, Prod.mk.injEq] at h2
            obtain ⟨-, h3⟩ := h2
            rw [← h3]
            simp
          · rw [if_neg hc] at h2
            simp only [Option.some.injEq, Prod.mk.injEq] at h2
            obtain ⟨-, h3⟩ := h2
            rw [← h3]
            simpa using hlen

/-- Specification-level greedy nearest-neighbor tour from a given current
stop over the remaining stops, repeatedly visiting the first-encountered
minimum-distance unvisited stop. The fuel argument is the number of loop
iterations still allowed; each iteration visits exactly one stop, so fuel
equal to the number of remaining stops is never exhausted early. -/
def nearestNeighborLoop {α : Type} [LinearOrder α] (dist : Stop → Stop → α) :
    ℕ → Stop → List Stop → List Stop
  | 0, _, _ => []
  | Nat.succ n, cur, rem =>
      match pickFirstMin dist cur rem with
      | none => []
      | some (t, r1) => t :: nearestNeighborLoop dist n t r1

/-- Specification-level greedy nearest-neighbor order: start at the first
input stop and repeatedly visit the closest unvisited stop. -/
def nearestNeighborSpec {α : Type} [LinearOrder α] (dist : Stop → Stop → α)
    (stops : List Stop) : List Stop :=
  match stops with
  | [] => []
  | s :: rest => s :: nearestNeighborLoop dist rest.length s rest

/-- The selection-and-splice loop of GoogleMapsService.optimizeStopOrder:
while stops remain, find the nearest one with the scanning loop, splice
it out of the remaining list, and append it to the visited order. The
fuel argument counts the loop iterations still allowed; the while loop of
the source runs exactly once per remaining stop, so fuel equal to the
number of remaining stops is never exhausted early. -/
def optLoop {α : Type} [LinearOrder α] (dist : Stop → Stop → α) :
    ℕ → Stop → List Stop → List Stop
  | 0, _, _ => []
  | Nat.succ _, _, [] => []
  | Nat.succ n, cur, r :: rs =>
      let i := findNearestIdx dist cur (r :: rs)
      let next := (r :: rs).getD i cur
      next :: optLoop dist n next ((r :: rs).eraseIdx i)

/-- GoogleMapsService.optimizeStopOrder, generic in the distance
function: lists of at most 2 stops are returned unchanged, otherwise the
nearest-neighbor loop runs from the first stop. -/
def optimizeStopOrderD {α : Type} [LinearOrder α] (dist : Stop → Stop → α)
    (stops : List Stop) : List Stop :=
  if stops.length ≤ 2 then stops
  else
    match stops with
    | [] => []
    | s :: rest => s :: optLoop dist rest.length s rest

/-- Distance between two stops as used by the service: the Haversine
distance between their coordinates. -/
noncomputable def stopDistance (a b : Stop) : ℝ :=
  calculateHaversineDistance a.latitude a.longitude b.latitude b.longitude

/-- GoogleMapsService.optimizeStopOrder as called by the mock route
builder, with the Haversine stop distance. -/
noncomputable def optimizeStopOrder (stops : List Stop) : List Stop :=
  optimizeStopOrderD stopDistance stops

theorem optLoop_eq_nearestNeighborLoop {α : Type} [LinearOrder α] (dist : Stop → Stop → α) :
    ∀ (n : ℕ) (cur : Stop) (rem : List Stop), rem.length ≤ n →
      optLoop dist n cur rem = nearestNeighborLoop dist n cur rem := by
  intro n
  induction n with
  | zero => intro cur rem hlen; rfl
  | succ n ih =>
      intro cur rem hlen
      cases rem with
      | nil => rfl
      | cons r rs =>
          have hne : (r :: rs) ≠ [] := by simp
          have hidx := findNearestIdx_eq_firstMinIdx dist cur (r :: rs) hne
          have hpick := pickFirstMin_eq dist cur (r :: rs) hne
          have hrhs : nearestNeighborLoop dist (n + 1) cur (r :: rs) =
              ((r :: rs).getD (firstMinIdx ((r :: rs).map (dist cur))) cur) ::
                nearestNeighborLoop dist n
                  ((r :: rs).getD (firstMinIdx ((r :: rs).map (dist cur))) cur)
                  ((r :: rs).eraseIdx (firstMinIdx ((r :: rs).map (dist cur)))) := by
            show (match pickFirstMin dist cur (r :: rs) with
                  | none => []
                  | some (t, r1) => t :: nearestNeighborLoop dist n t r1) = _
            rw [hpick]
          rw [hrhs]
          show ((r :: rs).getD (findNearestIdx dist cur (r :: rs)) cur) ::
              optLoop dist n ((r :: rs).getD (findNearestIdx dist cur (r :: rs)) cur)
                ((r :: rs).eraseIdx (findNearestIdx dist cur (r :: rs))) = _
          rw [hidx]
          congr 1
          have hj := firstMinIdx_lt_length ((r :: rs).map (dist cur)) (by simp)
          have hlen2 := List.length_eraseIdx_add_one
            (show firstMinIdx ((r :: rs).map (dist cur)) < (r :: rs).length by simpa using hj)
          have hl3 : rs.length + 1 ≤ n + 1 := by simpa using hlen
          rw [List.length_cons] at hlen2
          exact ih _ _ (by omega)

theorem perm_getD_cons_eraseIdx {β : Type} :
    ∀ (l : List β) (i : ℕ), i < l.length → ∀ (d : β),
      (l.getD i d :: l.eraseIdx i).Perm l := by
  intro l
  induction l with
  | nil => intro i h; simp at h
  | cons a rest ih =>
      intro i h d
      cases i with
      | zero => simp
      | succ i2 =>
          have h2 : i2 < rest.length := by simpa using h
          have hperm := ih i2 h2 d
          have hswap : ((rest.getD i2 d) :: a :: rest.eraseIdx i2).Perm
              (a :: (rest.getD i2 d) :: rest.eraseIdx i2) := List.Perm.swap a _ _
          exact hswap.trans (List.Perm.cons a hperm)

theorem optLoop_perm {α : Type} [LinearOrder α] (dist : Stop → Stop → α) :
    ∀ (n : ℕ) (cur : Stop) (rem : List Stop), rem.length ≤ n →
      (optLoop dist n cur rem).Perm rem := by
  intro n
  induction n with
  | zero =>
      intro cur rem hlen
      have : rem = [] := List.length_eq_zero.mp (Nat.le_zero.mp hlen)
      subst this
      exact List.Perm.refl _
  | succ n ih =>
      intro cur rem hlen
      cases rem with
      | nil => exact List.Perm.refl _
      | cons r rs =>
          have hne : (r :: rs) ≠ [] := by simp
          have hi := findNearestIdx_lt_length dist cur (r :: rs) hne
          have hlen2 := List.length_eraseIdx_add_one hi
          rw [List.length_cons] at hlen2
          have hl3 : rs.length + 1 ≤ n + 1 := by simpa using hlen
          have htail := ih ((r :: rs).getD (findNearestIdx dist cur (r :: rs)) cur)
            ((r :: rs).eraseIdx (findNearestIdx dist cur (r :: rs))) (by omega)
          exact (List.Perm.cons _ htail).trans
            (perm_getD_cons_eraseIdx (r :: rs) (findNearestIdx dist cur (r :: rs)) hi cur)

theorem optimizeStopOrderD_perm {α : Type} [LinearOrder α] (dist : Stop → Stop → α)
    (stops : List Stop) : (optimizeStopOrderD dist stops).Perm stops := by
  unfold optimizeStopOrderD
  split_ifs with h
  · exact List.Perm.refl stops
  · cases stops with
    | nil => exact List.Perm.refl _
    | cons s rest =>
        exact List.Perm.cons s (optLoop_perm dist rest.length s rest (le_refl _))

theorem optimizeStopOrderD_eq_spec {α : Type} [LinearOrder α] (dist : Stop → Stop → α)
    (stops : List Stop) (h : 3 ≤ stops.length) :
    optimizeStopOrderD dist stops = nearestNeighborSpec dist stops := by
  unfold optimizeStopOrderD
  rw [if_neg (by omega)]
  cases stops with
  | nil => rfl
  | cons s rest =>
      show s :: optLoop dist rest.length s rest =
        s :: nearestNeighborLoop dist rest.length s rest
      rw [optLoop_eq_nearestNeighborLoop dist rest.length s rest (le_refl _)]

/-! The fallback (mock) route builder of GoogleMapsService and the
metrics calculators of RouteOptimizationService. -/

/-- Body of the waypoint-building loop of getMockOptimizedRoute, written
as a recursion over the ordered stops. At each stop except the last, the
distance and travel time to the next stop, plus a 5-minute stop/loading
dwell, are accumulated first; the waypoint for the current stop then
carries an arrival instant of now plus the accumulated minutes (the
source computes estimatedArrival from totalDuration after the additions
for the departing leg). Returns (distance sum in meters, total minutes,
waypoints). -/
noncomputable def mockLoop (dist : Stop → Stop → ℝ) (now : ℤ) :
    ℝ → ℤ → List Stop → ℝ × ℤ × List Waypoint
  | accDist, accMin, [] => (accDist, accMin, [])
  | accDist, accMin, [s] =>
      (accDist, accMin,
        [{ latitude := s.latitude, longitude := s.longitude, address := s.address,
           estimatedArrival := now + accMin * 60000 }])
  | accDist, accMin, s :: s2 :: rest =>
      let d := dist s s2
      let accDist2 := accDist + d
      let accMin2 := accMin + round (d / 1000 * 2) + 5
      let r := mockLoop dist now accDist2 accMin2 (s2 :: rest)
      (r.1, r.2.1,
        { latitude := s.latitude, longitude := s.longitude, address := s.address,
          estimatedArrival := now + accMin2 * 60000 } :: r.2.2)

/-- GoogleMapsService.getMockOptimizedRoute: the fallback route. Fewer
than 2 stops give zero totals and arrival now for every stop; otherwise
the greedy-ordered stops are priced with Haversine leg estimates,
rounded total distance in meters and total duration converted to
seconds. The polyline is empty in fallback mode. The parameter now is
the Date.now() instant captured during the call. -/
noncomputable def getMockOptimizedRoute (now : ℤ) (stops : List Stop) : OptimizedRoute :=
  if stops.length < 2 then
    { totalDistance := 0, totalDuration := 0,
      waypoints := stops.map (fun s =>
        { latitude := s.latitude, longitude := s.longitude, address := s.address,
          estimatedArrival := now }),
      polyline := "" }
  else
    let optimizedStops := optimizeStopOrder stops
    let r := mockLoop stopDistance now 0 0 optimizedStops
    { totalDistance := ((round r.1 : ℤ) : ℝ),
      totalDuration := ((r.2.1 * 60 : ℤ) : ℝ),
      waypoints := r.2.2,
      polyline := "" }

/-- Sum of consecutive-leg distances of a stop list. -/
noncomputable def legDistanceSum (dist : Stop → Stop → ℝ) : List Stop → ℝ
  | [] => 0
  | [_] => 0
  | s :: s2 :: rest => dist s s2 + legDistanceSum dist (s2 :: rest)

/-- Total minutes accumulated by the fallback loop: per leg, the rounded
travel time of 2 minutes per kilometer plus the 5-minute dwell, for
every leg including the final one. -/
noncomputable def mockLegMinutes (dist : Stop → Stop → ℝ) : List Stop → ℤ
  | [] => 0
  | [_] => 0
  | s :: s2 :: rest => (round (dist s s2 / 1000 * 2) + 5) + mockLegMinutes dist (s2 :: rest)

/-- Totals produced by RouteOptimizationService.calculateOriginalRouteMetrics. -/
structure OriginalRouteMetrics where
  totalDistance : ℤ
  totalDuration : ℤ

/-- Body of the leg loop of calculateOriginalRouteMetrics: legs of the
stops in caller-given order, rounded travel minutes per leg, and a
5-minute dwell for every leg except the final one (the source guards the
dwell with the index being below length minus 2). Returns (distance sum
in meters, minutes). -/
noncomputable def origLoop (dist : Stop → Stop → ℝ) : List Stop → ℝ × ℤ
  | [] => (0, 0)
  | [_] => (0, 0)
  | s :: s2 :: rest =>
      let d := dist s s2
      let r := origLoop dist (s2 :: rest)
      (d + r.1, round (d / 1000 * 2) + (if rest.length = 0 then 0 else 5) + r.2)

/-- RouteOptimizationService.calculateOriginalRouteMetrics: baseline
distance and duration of the stops in caller-given order (no
reordering), used as the unoptimized comparison route. -/
noncomputable def calculateOriginalRouteMetrics (stops : List Stop) : OriginalRouteMetrics :=
  if stops.length < 2 then { totalDistance := 0, totalDuration := 0 }
  else
    let r := origLoop stopDistance stops
    { totalDistance := round r.1, totalDuration := r.2 * 60 }

/-- Metrics record returned by
RouteOptimizationService.calculateOptimizationMetrics; the three final
fields form the optimizationEfficiency sub-object. -/
structure OptimizationMetrics where
  timeSaved : ℤ
  distanceSaved : ℝ
  fuelSaved : ℝ
  co2Saved : ℝ
  costSaved : ℝ
  timeImprovement : ℤ
  distanceImprovement : ℤ
  fuelEfficiency : ℤ

/-- RouteOptimizationService.calculateOptimizationMetrics: savings of
the optimized route against the baseline computed from the original
stops, all clamped to be non-negative. -/
noncomputable def calculateOptimizationMetrics (optimizedRoute : OptimizedRoute)
    (originalStops : List Stop) : OptimizationMetrics :=
  let om := calculateOriginalRouteMetrics originalStops
  let timeSavedSeconds : ℤ := round ((om.totalDuration : ℝ) - optimizedRoute.totalDuration)
  let distanceSavedMeters : ℝ := (om.totalDistance : ℝ) - optimizedRoute.totalDistance
  let distanceSavedKm : ℝ := distanceSavedMeters / 1000
  let totalDistanceKm : ℝ := optimizedRoute.totalDistance / 1000
  let avgFuelConsumption : ℝ := if totalDistanceKm < 50 then 10 else 7
  let fuelSavedLiters : ℝ := distanceSavedKm * avgFuelConsumption / 100
  let co2SavedKg : ℝ := fuelSavedLiters * 2.3
  let fuelCostPerLiter : ℝ := 1.50
  let driverCostPerHour : ℝ := 25
  let fuelCostSaved : ℝ := fuelSavedLiters * fuelCostPerLiter
  let driverTimeSavedHours : ℝ := (timeSavedSeconds : ℝ) / 3600
  let driverCostSaved : ℝ := driverTimeSavedHours * driverCostPerHour
  let totalCostSaved : ℝ := fuelCostSaved + driverCostSaved
  let timeImprovementPercent : ℝ :=
    if 0 < (om.totalDuration : ℝ) then
      (((om.totalDuration : ℝ) - optimizedRoute.totalDuration) / (om.totalDuration : ℝ)) * 100
    else 0
  let distanceImprovementPercent : ℝ :=
    if 0 < (om.totalDistance : ℝ) then
      (((om.totalDistance : ℝ) - optimizedRoute.totalDistance) / (om.totalDistance : ℝ)) * 100
    else 0
  { timeSaved := max 0 timeSavedSeconds
    distanceSaved := max 0 (((round (distanceSavedKm * 1000) : ℤ) : ℝ) / 1000)
    fuelSaved := max 0 (((round (fuelSavedLiters * 1000) : ℤ) : ℝ) / 1000)
    co2Saved := max 0 (((round (co2SavedKg * 1000) : ℤ) : ℝ) / 1000)
    costSaved := max 0 (((round (totalCostSaved * 100) : ℤ) : ℝ) / 100)
    timeImprovement := max 0 (round timeImprovementPercent)
    distanceImprovement := max 0 (round distanceImprovementPercent)
    fuelEfficiency := max 0 (round distanceImprovementPercent) }

theorem round_nonneg {x : ℝ} (hx : 0 ≤ x) : 0 ≤ round x := by
  rw [round_eq]
  exact Int.le_floor.mpr (by push_cast; linarith)

theorem round_nonpos {x : ℝ} (hx : x ≤ 0) : round x ≤ 0 := by
  rw [round_eq]
  have h1 : ⌊x + 1 / 2⌋ ≤ ⌊(1 : ℝ) / 2⌋ := Int.floor_le_floor (by linarith)
  have h2 : ⌊(1 : ℝ) / 2⌋ = 0 := by
    rw [Int.floor_eq_zero_iff]
    constructor <;> norm_num
  omega

theorem mockLoop_waypoints (dist : Stop → Stop → ℝ) (now : ℤ) :
    ∀ (l : List Stop) (aD : ℝ) (aM : ℤ),
      ((mockLoop dist now aD aM l).2.2.map Waypoint.toStop) = l := by
  intro l
  induction l with
  | nil => intro aD aM; rfl
  | cons s rest ih =>
      intro aD aM
      cases rest with
      | nil => rfl
      | cons s2 rest2 =>
          simp only [mockLoop, List.map_cons]
          rw [ih]
          rfl

theorem mockLoop_totals (dist : Stop → Stop → ℝ) (now : ℤ) :
    ∀ (l : List Stop) (aD : ℝ) (aM : ℤ),
      (mockLoop dist now aD aM l).1 = aD + legDistanceSum dist l ∧
      (mockLoop dist now aD aM l).2.1 = aM + mockLegMinutes dist l := by
  intro l
  induction l with
  | nil => intro aD aM; constructor <;> simp [mockLoop, legDistanceSum, mockLegMinutes]
  | cons s rest ih =>
      intro aD aM
      cases rest with
      | nil => constructor <;> simp [mockLoop, legDistanceSum, mockLegMinutes]
      | cons s2 rest2 =>
          obtain ⟨h1, h2⟩ := ih (aD + dist s s2) (aM + round (dist s s2 / 1000 * 2) + 5)
          constructor
          · simp only [mockLoop, legDistanceSum]
            rw [h1]
            ring
          · simp only [mockLoop, mockLegMinutes]
            rw [h2]
            ring

theorem legDistanceSum_nonneg (dist : Stop → Stop → ℝ) (hd : ∀ a b, 0 ≤ dist a b) :
    ∀ (l : List Stop), 0 ≤ legDistanceSum dist l := by
  intro l
  induction l with
  | nil => simp [legDistanceSum]
  | cons s rest ih =>
      cases rest with
      | nil => simp [legDistanceSum]
      | cons s2 rest2 =>
          simp only [legDistanceSum]
          have := hd s s2
          have := ih
          positivity

theorem mockLegMinutes_nonneg (dist : Stop → Stop → ℝ) (hd : ∀ a b, 0 ≤ dist a b) :
    ∀ (l : List Stop), 0 ≤ mockLegMinutes dist l := by
  intro l
  induction l with
  | nil => simp [mockLegMinutes]
  | cons s rest ih =>
      cases rest with
      | nil => simp [mockLegMinutes]
      | cons s2 rest2 =>
          simp only [mockLegMinutes]
          have h1 : 0 ≤ round (dist s s2 / 1000 * 2) :=
            round_nonneg (by have := hd s s2; positivity)
          omega

theorem mockLoop_eta (dist : Stop → Stop → ℝ) (now : ℤ) :
    ∀ (l : List Stop) (aD : ℝ) (aM : ℤ) (i : ℕ) (w : Waypoint),
      (mockLoop dist now aD aM l).2.2.get? i = some w →
      w.estimatedArrival = now + (aM + mockLegMinutes dist (l.take (i + 2))) * 60000 := by
  intro l
  induction l with
  | nil => intro aD aM i w h; simp [mockLoop] at h
  | cons s rest ih =>
      intro aD aM i w h
      cases rest with
      | nil =>
          cases i with
          | zero =>
              simp only [mockLoop, List.get?_cons_zero, Option.some.injEq] at h
              rw [← h]
              simp [mockLegMinutes]
          | succ i2 => simp [mockLoop] at h
      | cons s2 rest2 =>
          simp only [mockLoop] at h
          cases i with
          | zero =>
              simp only [List.get?_cons_zero, Option.some.injEq] at h
              rw [← h]
              show now + (aM + round (dist s s2 / 1000 * 2) + 5) * 60000 = _
              have htake : (s :: s2 :: rest2).take 2 = [s, s2] := rfl
              rw [htake]
              show _ = now + (aM + ((round (dist s s2 / 1000 * 2) + 5) +
                mockLegMinutes dist [s2])) * 60000
              have : mockLegMinutes dist [s2] = 0 := rfl
              rw [this]
              ring
          | succ i2 =>
              have h2 : (mockLoop dist now (aD + dist s s2)
                  (aM + round (dist s s2 / 1000 * 2) + 5) (s2 :: rest2)).2.2.get? i2 =
                  some w := by simpa using h
              have := ih (aD + dist s s2) (aM + round (dist s s2 / 1000 * 2) + 5) i2 w h2
              rw [this]
              have htake : (s :: s2 :: rest2).take (i2 + 1 + 2) =
                  s :: (s2 :: rest2).take (i2 + 2) := rfl
              rw [htake]
              have hsplit : mockLegMinutes dist (s :: (s2 :: rest2).take (i2 + 2)) =
                  (round (dist s s2 / 1000 * 2) + 5) +
                    mockLegMinutes dist ((s2 :: rest2).take (i2 + 2)) := by
                show mockLegMinutes dist (s :: s2 :: rest2.take (i2 + 1)) = _
                rfl
              rw [hsplit]
              ring

theorem origLoop_dist (dist : Stop → Stop → ℝ) :
    ∀ (l : List Stop), (origLoop dist l).1 = legDistanceSum dist l := by
  intro l
  induction l with
  | nil => rfl
  | cons s rest ih =>
      cases rest with
      | nil => rfl
      | cons s2 rest2 =>
          simp only [origLoop, legDistanceSum]
          rw [ih]

theorem origLoop_minutes (dist : Stop → Stop → ℝ) :
    ∀ (l : List Stop), 2 ≤ l.length → (origLoop dist l).2 + 5 = mockLegMinutes dist l := by
  intro l
  induction l with
  | nil => intro h; simp at h
  | cons s rest ih =>
      intro hlen0
      cases rest with
      | nil => simp at hlen0
      | cons s2 rest2 =>
          cases rest2 with
          | nil =>
              show round (dist s s2 / 1000 * 2) + 0 + 0 + 5 = _
              show _ = (round (dist s s2 / 1000 * 2) + 5) + 0
              ring
          | cons s3 rest3 =>
              have hlen : 2 ≤ (s2 :: s3 :: rest3).length := by simp
              have ihr := ih hlen
              show round (dist s s2 / 1000 * 2) + 5 + (origLoop dist (s2 :: s3 :: rest3)).2 + 5 =
                (round (dist s s2 / 1000 * 2) + 5) + mockLegMinutes dist (s2 :: s3 :: rest3)
              omega

/-! Lifecycle orchestration: RouteOptimizationService.optimizeRoute.

The method is embedded as a step semantics over the persistence calls it
makes. Each prisma call can succeed or throw; which ones succeed in a
given execution is recorded in a PersistenceOutcome. The sequencer
(GoogleMapsService.optimizeRoute) is a parameter returning either a
route or a thrown error; the pure metrics computation is total and
cannot throw, so it does not appear as a failure point. The run returns
the persisted-state trace (statuses written for the request, in order,
whether completedAt was set, whether the OptimizedRoute row was written,
and the notifications that were attempted) together with the outcome
returned or thrown to the caller. -/

/-- Persisted status values of the RouteOptimizationStatus enum. -/
inductive RouteOptimizationStatus
  | PENDING
  | PROCESSING
  | COMPLETED
  | FAILED
deriving DecidableEq, Repr

/-- Notifications attempted by optimizeRoute, in order: the Kafka event
publications (fire-and-forget, publish failures swallowed by an attached
handler) and the WebSocket broadcasts. -/
inductive LifecycleNotification
  | requestedEvent
  | requestedBroadcast
  | optimizedEvent
  | optimizedBroadcast
  | failedBroadcast
deriving DecidableEq, Repr

/-- Which of the four persistence calls of optimizeRoute succeed in a
given execution. -/
structure PersistenceOutcome where
  createRequestOk : Bool
  createRouteOk : Bool
  updateCompletedOk : Bool
  updateFailedOk : Bool

/-- Error finally thrown by optimizeRoute: either the sequencing error
itself or the persistence error of the step that threw last. -/
inductive OptimizeError (ε : Type)
  | sequencing (e : ε)
  | createRequestFailed
  | createRouteFailed
  | updateCompletedFailed
  | failedStatusWriteFailed
deriving DecidableEq

/-- Observable persisted state and notification trace of one
optimizeRoute execution. -/
structure OptimizeRunState where
  statusHistory : List RouteOptimizationStatus
  completedAtSet : Bool
  routeSaved : Bool
  notifications : List LifecycleNotification
deriving DecidableEq, Repr

/-- The catch block of optimizeRoute: it updates the request to FAILED
with completedAt set and broadcasts the failure, then rethrows the
original error. The update itself can throw (and always throws when the
request row was never created); in that case the new persistence error
propagates instead of the original one and the broadcast is skipped. -/
def optimizeCatch {ε : Type} (st : OptimizeRunState) (requestRowExists : Bool)
    (updateFailedOk : Bool) (e : OptimizeError ε) :
    OptimizeRunState × Except (OptimizeError ε) Unit :=
  if requestRowExists && updateFailedOk then
    ({ st with
        statusHistory := st.statusHistory ++ [RouteOptimizationStatus.FAILED]
        completedAtSet := true
        notifications := st.notifications ++ [LifecycleNotification.failedBroadcast] },
      Except.error e)
  else
    (st, Except.error (OptimizeError.failedStatusWriteFailed))

/-- RouteOptimizationService.optimizeRoute as a function of the
persistence outcome, the sequencer and the submitted stops. -/
def optimizeRouteRun {ε : Type} (p : PersistenceOutcome)
    (sequence : List Stop → Except ε OptimizedRoute) (stops : List Stop) :
    OptimizeRunState × Except (OptimizeError ε) Unit :=
  if p.createRequestOk = false then
    optimizeCatch
      { statusHistory := [], completedAtSet := false, routeSaved := false,
        notifications := [] }
      false p.updateFailedOk (OptimizeError.createRequestFailed (ε := ε))
  else
    let st0 : OptimizeRunState :=
      { statusHistory := [RouteOptimizationStatus.PROCESSING]
        completedAtSet := false
        routeSaved := false
        notifications := [LifecycleNotification.requestedEvent,
          LifecycleNotification.requestedBroadcast] }
    match sequence stops with
    | Except.error e => optimizeCatch st0 true p.updateFailedOk (OptimizeError.sequencing e)
    | Except.ok _route =>
        -- calculateOptimizationMetrics runs here; it is pure and total
        if p.createRouteOk = false then
          optimizeCatch st0 true p.updateFailedOk (OptimizeError.createRouteFailed)
        else
          let st1 := { st0 with routeSaved := true }
          if p.updateCompletedOk = false then
            optimizeCatch st1 true p.updateFailedOk (OptimizeError.updateCompletedFailed)
          else
            ({ st1 with
                statusHistory := st1.statusHistory ++ [RouteOptimizationStatus.COMPLETED]
                completedAtSet := true
                notifications := st1.notifications ++ [LifecycleNotification.optimizedEvent,
                  LifecycleNotification.optimizedBroadcast] },
              Except.ok ())

/-- GoogleMapsService.optimizeRoute in mock mode (no API key
configured): it always returns the fallback route and never throws. The
provider-backed branch performs an external HTTP call and is represented
in the lifecycle model by leaving the sequencer abstract. -/
noncomputable def sequenceMockMode (now : ℤ) : List Stop → Except Unit OptimizedRoute :=
  fun stops => Except.ok (getMockOptimizedRoute now stops)

/-! Route updates: RouteOptimizationService.updateRoute. -/

/-- An OptimizedRoute row as stored, restricted to the fields updateRoute
reads: primary key, vehicle and current waypoints. -/
structure StoredOptimizedRoute where
  id : String
  vehicleId : String
  waypoints : List Waypoint

/-- Effects performed by a successful updateRoute call, in order. -/
inductive RouteUpdateEffect
  | createRouteUpdate (routeId vehicleId reason : String) (newWaypoints : List Waypoint)
  | publishUpdateEvent (routeId : String)
  | broadcastUpdateRequested (routeId : String)

/-- RouteOptimizationService.updateRoute: look up the OptimizedRoute
matching both routeId and vehicleId; if none exists throw
NotFoundException with no effects, otherwise append a RouteUpdate row
carrying the route's current waypoints unchanged, publish the update
event and broadcast the room push. -/
def updateRoute (db : List StoredOptimizedRoute) (routeId : String) (reason : String)
    (vehicleId : String) : Except String (List RouteUpdateEffect) :=
  match db.find? (fun r => r.id == routeId && r.vehicleId == vehicleId) with
  | none => Except.error "NotFoundException"
  | some route =>
      Except.ok [RouteUpdateEffect.createRouteUpdate routeId vehicleId reason route.waypoints,
        RouteUpdateEffect.publishUpdateEvent routeId,
        RouteUpdateEffect.broadcastUpdateRequested routeId]

/-! Real-time gateway: RouteOptimizationGateway.handleConnection. -/

/-- Token material presented by a connecting socket: the raw cookie
header, the handshake auth token field and the authorization header. -/
structure HandshakeInput where
  cookieHeader : Option String
  authToken : Option String
  authorizationHeader : Option String

/-- Identity carried by a verified JWT. -/
structure JwtPayload where
  userId : String
  email : String
  roles : List String

/-- Result of a connection attempt: whether the socket was disconnected,
whether it was added to the connectedClients registry, and the rooms it
joined. -/
structure ConnectionResult where
  disconnected : Bool
  registered : Bool
  joinedRooms : List String
deriving DecidableEq, Repr

/-- A JavaScript falsy check on a possibly-absent string: null,
undefined and the empty string are falsy. -/
def jsFalsy : Option String → Bool
  | none => true
  | some s => s == ""

/-- JavaScript logical-or on possibly-absent strings: the first operand
if truthy, else the second. -/
def jsOr (a b : Option String) : Option String :=
  match a with
  | none => b
  | some s => if s == "" then b else some s

/-- JavaScript String.replace with a plain-string pattern: only the
first occurrence is replaced; here specialized to deleting the first
occurrence of the pattern. -/
def replaceFirst (s pat : String) : String :=
  match s.splitOn pat with
  | [] => s
  | [_] => s
  | a :: rest => a ++ String.intercalate pat rest

/-- Cookie-token extraction of handleConnection: split the cookie header
on semicolons, find the first cookie whose trimmed form starts with the
access_token name, and take the text after the first equals sign. -/
def parseCookieToken (cookieHeader : String) : Option String :=
  let cookiePairs := cookieHeader.splitOn ";"
  match cookiePairs.find? (fun c => c.trim.startsWith "access_token=") with
  | none => none
  | some c => (c.splitOn "=").get? 1

/-- Token extraction of handleConnection: the access-token cookie first,
then (when that is absent or falsy) the handshake auth token,
or-else the authorization header with its first Bearer prefix removed. -/
def extractToken (h : HandshakeInput) : Option String :=
  let cookieToken := h.cookieHeader.bind parseCookieToken
  if jsFalsy cookieToken then
    jsOr h.authToken (h.authorizationHeader.map (fun s => replaceFirst s "Bearer "))
  else cookieToken

/-- RouteOptimizationGateway.handleConnection: extract a token (three
locations, in precedence order) and disconnect immediately when it is
absent; fail when no public key is configured; verify the token (the
verifier abstracts jwt.verify with the configured RS256 public key and
issuer, returning none on any verification failure, which the catch
block turns into a disconnect). Only a verified connection is added to
the registry and joined to its user-scoped room. -/
def handleConnection (publicKey issuer : String)
    (verify : String → String → String → Option JwtPayload)
    (h : HandshakeInput) : ConnectionResult :=
  let token := extractToken h
  if jsFalsy token then
    { disconnected := true, registered := false, joinedRooms := [] }
  else
    if publicKey == "" then
      { disconnected := true, registered := false, joinedRooms := [] }
    else
      match verify (token.getD "") publicKey issuer with
      | none => { disconnected := true, registered := false, joinedRooms := [] }
      | some payload =>
          { disconnected := false, registered := true,
            joinedRooms := ["user:" ++ payload.userId] }

/-! Concrete fixtures used by the claim theorems. -/

/-- A persistence outcome in which every prisma call succeeds. -/
def pAllOk : PersistenceOutcome :=
  { createRequestOk := true, createRouteOk := true, updateCompletedOk := true,
    updateFailedOk := true }

/-- A persistence outcome in which only the COMPLETED status write fails. -/
def pCompletedFails : PersistenceOutcome :=
  { createRequestOk := true, createRouteOk := true, updateCompletedOk := false,
    updateFailedOk := true }

/-- A persistence outcome in which only the FAILED status write fails. -/
def pFailedWriteFails : PersistenceOutcome :=
  { createRequestOk := true, createRouteOk := true, updateCompletedOk := true,
    updateFailedOk := false }

/-- A sequencer that always succeeds with a zero route. -/
def seqZero : List Stop → Except Unit OptimizedRoute :=
  fun _ => Except.ok { totalDistance := 0, totalDuration := 0, waypoints := [], polyline := "" }

/-- A sequencer that always throws. -/
def seqErr : List Stop → Except Unit OptimizedRoute :=
  fun _ => Except.error ()

/-- C1 counterexample: with the route row already persisted, a failing
COMPLETED status write sends optimizeRoute to its catch block, which
writes FAILED; the run ends with final status FAILED while the
OptimizedRoute row exists, contradicting the claim that a FAILED request
has no associated OptimizedRoute record. -/
theorem route_row_survives_failed_status :
    (optimizeRouteRun pCompletedFails seqZero []).1.statusHistory =
      [RouteOptimizationStatus.PROCESSING, RouteOptimizationStatus.FAILED] ∧
    (optimizeRouteRun pCompletedFails seqZero []).1.routeSaved = true :=
  ⟨rfl, rfl⟩

/-- C1 amended: when the initial request creation succeeds and the
FAILED status write succeeds whenever attempted, the persisted status
sequence is exactly PROCESSING followed by COMPLETED, or PROCESSING
followed by FAILED, and a run ending COMPLETED has persisted the
OptimizedRoute row; a run ending FAILED may or may not have persisted
it. -/
theorem optimizeRoute_status_machine {ε : Type} (p : PersistenceOutcome)
    (sequence : List Stop → Except ε OptimizedRoute) (stops : List Stop)
    (h1 : p.createRequestOk = true) (h2 : p.updateFailedOk = true) :
    ((optimizeRouteRun p sequence stops).1.statusHistory =
        [RouteOptimizationStatus.PROCESSING, RouteOptimizationStatus.COMPLETED] ∨
      (optimizeRouteRun p sequence stops).1.statusHistory =
        [RouteOptimizationStatus.PROCESSING, RouteOptimizationStatus.FAILED]) ∧
    ((optimizeRouteRun p sequence stops).1.statusHistory =
        [RouteOptimizationStatus.PROCESSING, RouteOptimizationStatus.COMPLETED] →
      (optimizeRouteRun p sequence stops).1.routeSaved = true) := by
  simp only [optimizeRouteRun, h1]
  cases hseq : sequence stops with
  | error e =>
      simp only [optimizeCatch, h2]
      norm_num
      decide
  | ok r =>
      cases hcr : p.createRouteOk with
      | false =>
          simp only [optimizeCatch, h2]
          norm_num
          decide
      | true =>
          cases hup : p.updateCompletedOk with
          | false =>
              simp only [optimizeCatch, h2]
              norm_num
          | true =>
              norm_num

/-- C1 witness: the amended status-machine theorem applied to a concrete
all-successful run. -/
theorem optimizeRoute_status_machine_witness :
    ((optimizeRouteRun pAllOk seqZero []).1.statusHistory =
        [RouteOptimizationStatus.PROCESSING, RouteOptimizationStatus.COMPLETED] ∨
      (optimizeRouteRun pAllOk seqZero []).1.statusHistory =
        [RouteOptimizationStatus.PROCESSING, RouteOptimizationStatus.FAILED]) ∧
    ((optimizeRouteRun pAllOk seqZero []).1.statusHistory =
        [RouteOptimizationStatus.PROCESSING, RouteOptimizationStatus.COMPLETED] →
      (optimizeRouteRun pAllOk seqZero []).1.routeSaved = true) :=
  optimizeRoute_status_machine pAllOk seqZero [] rfl rfl

/-- C4 counterexample: when the FAILED status write itself fails, the
catch block's update throws, so the thrown error is the persistence
error of that write rather than the original sequencing error, and the
failed broadcast never happens; this contradicts the claim that the
original error is re-raised and the failure only logged. -/
theorem failed_write_error_shadows_original :
    (optimizeRouteRun pFailedWriteFails seqErr []).2 =
      Except.error (OptimizeError.failedStatusWriteFailed) ∧
    (optimizeRouteRun pFailedWriteFails seqErr []).1.statusHistory =
      [RouteOptimizationStatus.PROCESSING] ∧
    (optimizeRouteRun pFailedWriteFails seqErr []).1.notifications =
      [LifecycleNotification.requestedEvent, LifecycleNotification.requestedBroadcast] :=
  ⟨rfl, rfl, rfl⟩

/-- C4 amended: when the request row exists and the FAILED status write
succeeds, any error from sequencing, route persistence, or the COMPLETED
status write leads to status FAILED with completedAt set, the failed
broadcast, and the original error re-raised; but when the FAILED write
itself fails, that persistence error replaces the original error (see
the counterexample). -/
theorem optimizeRoute_error_handling {ε : Type} (p : PersistenceOutcome)
    (sequence : List Stop → Except ε OptimizedRoute) (stops : List Stop)
    (h1 : p.createRequestOk = true) (h2 : p.updateFailedOk = true) :
    (∀ e, sequence stops = Except.error e →
      optimizeRouteRun p sequence stops =
        ({ statusHistory := [RouteOptimizationStatus.PROCESSING,
              RouteOptimizationStatus.FAILED],
            completedAtSet := true, routeSaved := false,
            notifications := [LifecycleNotification.requestedEvent,
              LifecycleNotification.requestedBroadcast,
              LifecycleNotification.failedBroadcast] },
          Except.error (OptimizeError.sequencing e))) ∧
    (p.createRouteOk = false → ∀ r, sequence stops = Except.ok r →
      optimizeRouteRun p sequence stops =
        ({ statusHistory := [RouteOptimizationStatus.PROCESSING,
              RouteOptimizationStatus.FAILED],
            completedAtSet := true, routeSaved := false,
            notifications := [LifecycleNotification.requestedEvent,
              LifecycleNotification.requestedBroadcast,
              LifecycleNotification.failedBroadcast] },
          Except.error (OptimizeError.createRouteFailed))) ∧
    (p.createRouteOk = true → p.updateCompletedOk = false →
      ∀ r, sequence stops = Except.ok r →
      optimizeRouteRun p sequence stops =
        ({ statusHistory := [RouteOptimizationStatus.PROCESSING,
              RouteOptimizationStatus.FAILED],
            completedAtSet := true, routeSaved := true,
            notifications := [LifecycleNotification.requestedEvent,
              LifecycleNotification.requestedBroadcast,
              LifecycleNotification.failedBroadcast] },
          Except.error (OptimizeError.updateCompletedFailed))) := by
  refine ⟨?_, ?_, ?_⟩
  · intro e hseq
    simp only [optimizeRouteRun, h1, hseq, optimizeCatch, h2]
    norm_num
  · intro hcr r hseq
    simp only [optimizeRouteRun, h1, hseq, hcr, optimizeCatch, h2]
    norm_num
  · intro hcr hup r hseq
    simp only [optimizeRouteRun, h1, hseq, hcr, hup, optimizeCatch, h2]
    norm_num

/-- C4 witness: the amended error-handling theorem applied to a run
whose sequencer throws and whose FAILED write succeeds. -/
theorem optimizeRoute_error_handling_witness :
    optimizeRouteRun pAllOk seqErr [] =
      ({ statusHistory := [RouteOptimizationStatus.PROCESSING,
            RouteOptimizationStatus.FAILED],
          completedAtSet := true, routeSaved := false,
          notifications := [LifecycleNotification.requestedEvent,
            LifecycleNotification.requestedBroadcast,
            LifecycleNotification.failedBroadcast] },
        Except.error (OptimizeError.sequencing ())) :=
  (optimizeRoute_error_handling pAllOk seqErr [] rfl rfl).1 () rfl

/-- C7 counterexample: an empty stop list is not rejected; with healthy
persistence and the mock sequencer the request is persisted, runs to
COMPLETED, and the requested and optimized notifications are sent —
there is no ValidationError and persistence does occur. -/
theorem empty_stops_accepted :
    (optimizeRouteRun pAllOk (sequenceMockMode 0) []).2 = Except.ok () ∧
    (optimizeRouteRun pAllOk (sequenceMockMode 0) []).1.statusHistory =
      [RouteOptimizationStatus.PROCESSING, RouteOptimizationStatus.COMPLETED] :=
  ⟨rfl, rfl⟩

/-- C7 amended: the service performs no empty-stop-list validation; a
submission with an empty stop list creates the request as PROCESSING,
fans out the requested notifications, obtains a zero-distance
zero-duration fallback route with no waypoints, persists it, and
completes with status COMPLETED. Any empty-list rejection happens in the
HTTP validation layer outside this service. -/
theorem empty_stops_full_lifecycle :
    optimizeRouteRun pAllOk (sequenceMockMode 0) [] =
      ({ statusHistory := [RouteOptimizationStatus.PROCESSING,
            RouteOptimizationStatus.COMPLETED],
          completedAtSet := true, routeSaved := true,
          notifications := [LifecycleNotification.requestedEvent,
            LifecycleNotification.requestedBroadcast,
            LifecycleNotification.optimizedEvent,
            LifecycleNotification.optimizedBroadcast] },
        Except.ok ()) ∧
    (getMockOptimizedRoute 0 []).waypoints = [] ∧
    (getMockOptimizedRoute 0 []).totalDistance = 0 ∧
    (getMockOptimizedRoute 0 []).totalDuration = 0 :=
  ⟨rfl, rfl, rfl, rfl⟩

/-- C5: calculateOptimizationMetrics returns only non-negative fields
for every pair of inputs, and the time (respectively distance and fuel)
improvement percentages are 0 whenever the baseline duration
(respectively distance) is 0. -/
theorem calculateOptimizationMetrics_nonneg (r : OptimizedRoute) (stops : List Stop) :
    0 ≤ (calculateOptimizationMetrics r stops).timeSaved ∧
    0 ≤ (calculateOptimizationMetrics r stops).distanceSaved ∧
    0 ≤ (calculateOptimizationMetrics r stops).fuelSaved ∧
    0 ≤ (calculateOptimizationMetrics r stops).co2Saved ∧
    0 ≤ (calculateOptimizationMetrics r stops).costSaved ∧
    0 ≤ (calculateOptimizationMetrics r stops).timeImprovement ∧
    0 ≤ (calculateOptimizationMetrics r stops).distanceImprovement ∧
    0 ≤ (calculateOptimizationMetrics r stops).fuelEfficiency ∧
    ((calculateOriginalRouteMetrics stops).totalDuration = 0 →
      (calculateOptimizationMetrics r stops).timeImprovement = 0) ∧
    ((calculateOriginalRouteMetrics stops).totalDistance = 0 →
      (calculateOptimizationMetrics r stops).distanceImprovement = 0 ∧
      (calculateOptimizationMetrics r stops).fuelEfficiency = 0) := by
  refine ⟨le_max_left _ _, le_max_left _ _, le_max_left _ _, le_max_left _ _,
    le_max_left _ _, le_max_left _ _, le_max_left _ _, le_max_left _ _, ?_, ?_⟩
  · intro h
    simp only [calculateOptimizationMetrics, h]
    norm_num
  · intro h
    simp only [calculateOptimizationMetrics, h]
    norm_num

/-- C5 witness: the metrics non-negativity theorem applied to a concrete
route and stop list. -/
theorem calculateOptimizationMetrics_nonneg_witness :
    0 ≤ (calculateOptimizationMetrics
      { totalDistance := 0, totalDuration := 0, waypoints := [], polyline := "" } []).timeSaved :=
  (calculateOptimizationMetrics_nonneg
    { totalDistance := 0, totalDuration := 0, waypoints := [], polyline := "" } []).1

/-- C8: updateRoute on a routeId/vehicleId pair matching no stored
OptimizedRoute throws NotFoundException with no RouteUpdate row, no
event publication and no room push; when a match exists, the appended
RouteUpdate carries the matched route's current waypoints unchanged,
followed by the update event and the room broadcast. -/
theorem updateRoute_spec (db : List StoredOptimizedRoute) (routeId reason vehicleId : String) :
    (db.find? (fun r => r.id == routeId && r.vehicleId == vehicleId) = none →
      updateRoute db routeId reason vehicleId = Except.error "NotFoundException") ∧
    (∀ route, db.find? (fun r => r.id == routeId && r.vehicleId == vehicleId) = some route →
      updateRoute db routeId reason vehicleId =
        Except.ok [RouteUpdateEffect.createRouteUpdate routeId vehicleId reason route.waypoints,
          RouteUpdateEffect.publishUpdateEvent routeId,
          RouteUpdateEffect.broadcastUpdateRequested routeId]) := by
  constructor
  · intro h
    unfold updateRoute
    rw [h]
  · intro route h
    unfold updateRoute
    rw [h]

/-- C8 witness: updateRoute against an empty store raises
NotFoundException. -/
theorem updateRoute_spec_witness :
    updateRoute [] "route-1" "TRAFFIC_CHANGE" "vehicle-1" = Except.error "NotFoundException" :=
  (updateRoute_spec [] "route-1" "TRAFFIC_CHANGE" "vehicle-1").1 rfl

/-- C10: a connection presenting no token in any of the three accepted
locations, or presenting a token that fails verification (including when
no public key is configured), is disconnected, never registered, and
joins no room; only a connection passing verification is registered and
joined to its user-scoped room. -/
theorem handleConnection_auth (publicKey issuer : String)
    (verify : String → String → String → Option JwtPayload) (h : HandshakeInput) :
    (jsFalsy (extractToken h) = true →
      handleConnection publicKey issuer verify h =
        { disconnected := true, registered := false, joinedRooms := [] }) ∧
    (jsFalsy (extractToken h) = false → publicKey = "" →
      handleConnection publicKey issuer verify h =
        { disconnected := true, registered := false, joinedRooms := [] }) ∧
    (jsFalsy (extractToken h) = false → publicKey ≠ "" →
      verify ((extractToken h).getD "") publicKey issuer = none →
      handleConnection publicKey issuer verify h =
        { disconnected := true, registered := false, joinedRooms := [] }) ∧
    (∀ payload, jsFalsy (extractToken h) = false → publicKey ≠ "" →
      verify ((extractToken h).getD "") publicKey issuer = some payload →
      handleConnection publicKey issuer verify h =
        { disconnected := false, registered := true,
          joinedRooms := ["user:" ++ payload.userId] }) := by
  refine ⟨?_, ?_, ?_, ?_⟩
  · intro htok
    simp only [handleConnection, htok]
    norm_num
  · intro htok hpk
    simp only [handleConnection, htok, hpk]
    norm_num
  · intro htok hpk hv
    have hpk2 : (publicKey == "") = false := by
      simpa using hpk
    simp only [handleConnection, htok, hpk2, hv]
    norm_num
  · intro payload htok hpk hv
    have hpk2 : (publicKey == "") = false := by
      simpa using hpk
    simp only [handleConnection, htok, hpk2, hv]
    norm_num

/-- C10 witness: a connection with no cookie, no auth field and no
authorization header is disconnected, unregistered and in no room. -/
theorem handleConnection_auth_witness :
    handleConnection "" "yatms-user-service-dev" (fun _ _ _ => none)
      { cookieHeader := none, authToken := none, authorizationHeader := none } =
      { disconnected := true, registered := false, joinedRooms := [] } :=
  (handleConnection_auth "" "yatms-user-service-dev" (fun _ _ _ => none)
    { cookieHeader := none, authToken := none, authorizationHeader := none }).1 rfl

theorem stopDistance_nonneg (a b : Stop) : 0 ≤ stopDistance a b :=
  calculateHaversineDistance_nonneg a.latitude a.longitude b.latitude b.longitude

/-- C2: for every non-empty stop list the fallback sequencer returns an
ordering that is a permutation of the input stops (same multiset, hence
same length), with non-negative total distance and duration; and for
lists of at least 3 stops the ordering equals greedy nearest-neighbor
from the first input stop with Haversine distances, ties broken in favor
of the first-encountered minimum. -/
theorem fallback_sequencer_spec (now : ℤ) (stops : List Stop) (h : stops ≠ []) :
    (((getMockOptimizedRoute now stops).waypoints.map Waypoint.toStop).Perm stops) ∧
    0 ≤ (getMockOptimizedRoute now stops).totalDistance ∧
    0 ≤ (getMockOptimizedRoute now stops).totalDuration ∧
    (3 ≤ stops.length →
      (getMockOptimizedRoute now stops).waypoints.map Waypoint.toStop =
        nearestNeighborSpec stopDistance stops) := by
  by_cases hlen : stops.length < 2
  · simp only [getMockOptimizedRoute, if_pos hlen]
    have hmap : (stops.map (fun s =>
        ({ latitude := s.latitude, longitude := s.longitude, address := s.address,
           estimatedArrival := now } : Waypoint))).map Waypoint.toStop = stops := by
      rw [List.map_map]
      have hcomp : (Waypoint.toStop ∘ (fun s =>
          ({ latitude := s.latitude, longitude := s.longitude, address := s.address,
             estimatedArrival := now } : Waypoint))) = id := by
        funext s
        rfl
      rw [hcomp, List.map_id]
    refine ⟨?_, le_refl 0, le_refl 0, ?_⟩
    · rw [hmap]
    · intro h3
      omega
  · simp only [getMockOptimizedRoute, if_neg hlen]
    have hwp := mockLoop_waypoints stopDistance now (optimizeStopOrder stops) 0 0
    obtain ⟨hd, hm⟩ := mockLoop_totals stopDistance now (optimizeStopOrder stops) 0 0
    have hperm : (optimizeStopOrder stops).Perm stops := optimizeStopOrderD_perm _ stops
    refine ⟨?_, ?_, ?_, ?_⟩
    · rw [hwp]
      exact hperm
    · rw [hd]
      have hsum := legDistanceSum_nonneg stopDistance stopDistance_nonneg
        (optimizeStopOrder stops)
      exact_mod_cast Int.cast_nonneg.mpr (round_nonneg (by linarith))
    · rw [hm]
      have hmin := mockLegMinutes_nonneg stopDistance stopDistance_nonneg
        (optimizeStopOrder stops)
      have : (0 : ℤ) ≤ (0 + mockLegMinutes stopDistance (optimizeStopOrder stops)) * 60 := by
        omega
      exact_mod_cast Int.cast_nonneg.mpr this
    · intro h3
      rw [hwp]
      exact optimizeStopOrderD_eq_spec stopDistance stops h3

/-- A fixture stop at the origin. -/
def s0 : Stop := { latitude := 0, longitude := 0, address := "A" }

/-- C2 witness: the fallback-sequencer theorem applied to a concrete
one-stop list. -/
theorem fallback_sequencer_spec_witness :
    0 ≤ (getMockOptimizedRoute 0 [s0]).totalDistance :=
  (fallback_sequencer_spec 0 [s0] (by simp)).2.1

theorem haversine_zero : calculateHaversineDistance 0 0 0 0 = 0 := by
  simp only [calculateHaversineDistance, toRadians]
  norm_num [Real.sin_zero, Real.sqrt_zero, Real.sqrt_one, atan2, Real.arctan_zero]

theorem stopDistance_s0 : stopDistance s0 s0 = 0 := haversine_zero

/-- C3 counterexample: for the two coincident stops of the fixture the
greedy order equals the input order, yet the baseline duration is 0
while the fallback route's duration is 300 seconds: the fallback charges
the 5-minute dwell on its final leg and the baseline does not, so the
two per-leg estimations are not the same and the durations differ. -/
theorem baseline_dwell_counterexample :
    optimizeStopOrder [s0, s0] = [s0, s0] ∧
    (calculateOriginalRouteMetrics [s0, s0]).totalDuration = 0 ∧
    (getMockOptimizedRoute 0 [s0, s0]).totalDuration = 300 := by
  refine ⟨rfl, ?_, ?_⟩
  · simp only [calculateOriginalRouteMetrics]
    rw [if_neg (by norm_num)]
    simp only [origLoop, stopDistance_s0]
    norm_num
  · simp only [getMockOptimizedRoute]
    rw [if_neg (by norm_num)]
    have horder : optimizeStopOrder [s0, s0] = [s0, s0] := rfl
    rw [horder]
    simp only [mockLoop, stopDistance_s0]
    norm_num

theorem max_zero_round_eq_zero {x : ℝ} (hx : x ≤ 0) : max 0 (round x) = 0 :=
  max_eq_left (round_nonpos hx)

theorem max_zero_round_div_eq_zero {x c : ℝ} (hx : x ≤ 0) (hc : 0 ≤ c) :
    max 0 (((round x : ℤ) : ℝ) / c) = 0 :=
  max_eq_left (div_nonpos_iff.mpr (Or.inr ⟨Int.cast_nonpos.mpr (round_nonpos hx), hc⟩))

/-- Helper for C3: whenever the optimized route is exactly 300 seconds
longer than the baseline with the same total distance, every savings
field and every improvement percentage of the metrics calculator is
clamped to zero. -/
theorem metrics_zero_of_offset (r : OptimizedRoute) (stops : List Stop)
    (hdur : r.totalDuration = ((calculateOriginalRouteMetrics stops).totalDuration : ℝ) + 300)
    (hdist : r.totalDistance = ((calculateOriginalRouteMetrics stops).totalDistance : ℝ)) :
    calculateOptimizationMetrics r stops =
      { timeSaved := 0, distanceSaved := 0, fuelSaved := 0, co2Saved := 0, costSaved := 0,
        timeImprovement := 0, distanceImprovement := 0, fuelEfficiency := 0 } := by
  simp only [calculateOptimizationMetrics, hdur, hdist]
  set Dz := (calculateOriginalRouteMetrics stops).totalDuration with hDz
  set Sz := (calculateOriginalRouteMetrics stops).totalDistance with hSz
  have e1 : (Dz : ℝ) - ((Dz : ℝ) + 300) = -300 := by ring
  have e2 : (Sz : ℝ) - (Sz : ℝ) = 0 := by ring
  rw [e1, e2]
  have e3 : round ((-300 : ℝ)) = -300 := by
    rw [show ((-300 : ℝ)) = ((-300 : ℤ) : ℝ) by norm_num, round_intCast]
  rw [e3]
  have e4 : (0 : ℝ) / 1000 = 0 := by norm_num
  rw [e4]
  simp only [OptimizationMetrics.mk.injEq]
  refine ⟨?_, ?_, ?_, ?_, ?_, ?_, ?_, ?_⟩
  · decide
  · refine max_zero_round_div_eq_zero ?_ (by norm_num)
    norm_num
  · refine max_zero_round_div_eq_zero ?_ (by norm_num)
    split_ifs <;> norm_num
  · refine max_zero_round_div_eq_zero ?_ (by norm_num)
    split_ifs <;> norm_num
  · refine max_zero_round_div_eq_zero ?_ (by norm_num)
    split_ifs <;> (push_cast; norm_num)
  · split_ifs with hpos
    · refine max_zero_round_eq_zero ?_
      have h1 : (-300 : ℝ) / (Dz : ℝ) ≤ 0 :=
        div_nonpos_iff.mpr (Or.inr ⟨by norm_num, le_of_lt hpos⟩)
      linarith
    · exact max_zero_round_eq_zero (le_refl 0)
  · split_ifs with hpos
    · refine max_zero_round_eq_zero ?_
      norm_num
    · exact max_zero_round_eq_zero (le_refl 0)
  · split_ifs with hpos
    · refine max_zero_round_eq_zero ?_
      norm_num
    · exact max_zero_round_eq_zero (le_refl 0)

/-- C3 amended: the baseline shares the Haversine leg distances and the
rounded 2-minutes-per-kilometer travel time with the fallback, but
charges the 5-minute dwell on one leg fewer (all legs except the final
one, versus every leg in the fallback); consequently, for every stop
list of at least 2 stops whose greedy order equals the input order, the
fallback duration exceeds the baseline by exactly 300 seconds, the total
distances agree, and every savings field and improvement percentage is
clamped to zero. -/
theorem baseline_offset_and_zero_savings (now : ℤ) (stops : List Stop)
    (h2 : 2 ≤ stops.length) (horder : optimizeStopOrder stops = stops) :
    (getMockOptimizedRoute now stops).totalDuration =
      ((calculateOriginalRouteMetrics stops).totalDuration : ℝ) + 300 ∧
    (getMockOptimizedRoute now stops).totalDistance =
      ((calculateOriginalRouteMetrics stops).totalDistance : ℝ) ∧
    calculateOptimizationMetrics (getMockOptimizedRoute now stops) stops =
      { timeSaved := 0, distanceSaved := 0, fuelSaved := 0, co2Saved := 0, costSaved := 0,
        timeImprovement := 0, distanceImprovement := 0, fuelEfficiency := 0 } := by
  have hnl : ¬ stops.length < 2 := by omega
  have hmockDur : (getMockOptimizedRoute now stops).totalDuration =
      ((mockLegMinutes stopDistance stops * 60 : ℤ) : ℝ) := by
    simp only [getMockOptimizedRoute, if_neg hnl, horder]
    rw [(mockLoop_totals stopDistance now stops 0 0).2]
    norm_num
  have hmockDist : (getMockOptimizedRoute now stops).totalDistance =
      ((round (legDistanceSum stopDistance stops) : ℤ) : ℝ) := by
    simp only [getMockOptimizedRoute, if_neg hnl, horder]
    rw [(mockLoop_totals stopDistance now stops 0 0).1]
    norm_num
  have horigDur : (calculateOriginalRouteMetrics stops).totalDuration =
      (mockLegMinutes stopDistance stops - 5) * 60 := by
    simp only [calculateOriginalRouteMetrics, if_neg hnl]
    have h5 := origLoop_minutes stopDistance stops h2
    omega
  have horigDist : (calculateOriginalRouteMetrics stops).totalDistance =
      round (legDistanceSum stopDistance stops) := by
    simp only [calculateOriginalRouteMetrics, if_neg hnl]
    rw [origLoop_dist]
  have hdur : (getMockOptimizedRoute now stops).totalDuration =
      ((calculateOriginalRouteMetrics stops).totalDuration : ℝ) + 300 := by
    rw [hmockDur, horigDur]
    push_cast
    ring
  have hdist : (getMockOptimizedRoute now stops).totalDistance =
      ((calculateOriginalRouteMetrics stops).totalDistance : ℝ) := by
    rw [hmockDist, horigDist]
  exact ⟨hdur, hdist, metrics_zero_of_offset _ stops hdur hdist⟩

/-- C3 witness: the amended baseline-offset theorem applied to the
two-coincident-stop fixture, whose greedy order trivially equals the
input order. -/
theorem baseline_offset_witness :
    (getMockOptimizedRoute 0 [s0, s0]).totalDuration =
      ((calculateOriginalRouteMetrics [s0, s0]).totalDuration : ℝ) + 300 :=
  (baseline_offset_and_zero_savings 0 [s0, s0] (by norm_num) rfl).1

/-- C6 counterexample: with two coincident stops and now = 0, the first
waypoint's estimated arrival is 300000 ms after now (the travel time
plus dwell of the leg departing the first stop), not now itself as the
claim states. -/
theorem first_waypoint_eta_counterexample :
    ((getMockOptimizedRoute 0 [s0, s0]).waypoints.get? 0).map Waypoint.estimatedArrival =
      some 300000 ∧ (300000 : ℤ) ≠ 0 := by
  constructor
  · simp only [getMockOptimizedRoute]
    rw [if_neg (by norm_num)]
    have horder : optimizeStopOrder [s0, s0] = [s0, s0] := rfl
    rw [horder]
    simp only [mockLoop, stopDistance_s0]
    norm_num
  · decide

/-- C6 amended: for fewer than 2 stops the fallback returns zero totals
and every waypoint arrives at now; for at least 2 stops the estimated
arrival of the i-th waypoint is now plus the cumulative duration of the
legs up to and including the leg departing that stop (travel time plus
dwell per leg) — not the legs preceding the stop, so in particular the
first waypoint's arrival is now plus the first leg's duration. -/
theorem waypoint_eta_cumulative (now : ℤ) (stops : List Stop) :
    (stops.length < 2 →
      (getMockOptimizedRoute now stops).totalDistance = 0 ∧
      (getMockOptimizedRoute now stops).totalDuration = 0 ∧
      ∀ w ∈ (getMockOptimizedRoute now stops).waypoints, w.estimatedArrival = now) ∧
    (2 ≤ stops.length → ∀ i w,
      (getMockOptimizedRoute now stops).waypoints.get? i = some w →
      w.estimatedArrival = now +
        mockLegMinutes stopDistance ((optimizeStopOrder stops).take (i + 2)) * 60000) := by
  constructor
  · intro hlen
    simp only [getMockOptimizedRoute, if_pos hlen]
    refine ⟨trivial, trivial, ?_⟩
    intro w hw
    simp only [List.mem_map] at hw
    obtain ⟨s, -, hs⟩ := hw
    rw [← hs]
  · intro hlen i w hget
    have hnl : ¬ stops.length < 2 := by omega
    simp only [getMockOptimizedRoute, if_neg hnl] at hget
    have := mockLoop_eta stopDistance now (optimizeStopOrder stops) 0 0 i w hget
    rw [this]
    norm_num

/-- C6 witness: the amended waypoint-arrival theorem applied to an empty
stop list. -/
theorem waypoint_eta_cumulative_witness :
    (getMockOptimizedRoute 0 []).totalDistance = 0 ∧
    (getMockOptimizedRoute 0 []).totalDuration = 0 ∧
    ∀ w ∈ (getMockOptimizedRoute 0 []).waypoints, w.estimatedArrival = 0 :=
  (waypoint_eta_cumulative 0 []).1 (by norm_num)

/-! Interval arithmetic used to bound the Haversine distance of the
worked two-stop example. -/

theorem sin_interval {x lo hi : ℝ} (hlo : lo ≤ x) (hhi : x ≤ hi) (h0 : 0 ≤ lo) (h1 : hi ≤ 1) :
    lo - hi ^ 3 / 6 - hi ^ 4 * (5 / 96) ≤ Real.sin x ∧
    Real.sin x ≤ hi + hi ^ 4 * (5 / 96) := by
  have hx0 : 0 ≤ x := le_trans h0 hlo
  have hxa : |x| ≤ 1 := by
    rw [abs_of_nonneg hx0]
    linarith
  have hb := abs_le.mp (Real.sin_bound hxa)
  rw [abs_of_nonneg hx0] at hb
  have h3 : x ^ 3 ≤ hi ^ 3 := pow_le_pow_left hx0 hhi 3
  have h4 : x ^ 4 ≤ hi ^ 4 := pow_le_pow_left hx0 hhi 4
  have h30 : 0 ≤ x ^ 3 := pow_nonneg hx0 3
  have h40 : 0 ≤ x ^ 4 := pow_nonneg hx0 4
  constructor <;> linarith [hb.1, hb.2]

theorem cos_interval {x lo hi : ℝ} (hlo : lo ≤ x) (hhi : x ≤ hi) (h0 : 0 ≤ lo) (h1 : hi ≤ 1) :
    1 - hi ^ 2 / 2 - hi ^ 4 * (5 / 96) ≤ Real.cos x ∧
    Real.cos x ≤ 1 - lo ^ 2 / 2 + hi ^ 4 * (5 / 96) := by
  have hx0 : 0 ≤ x := le_trans h0 hlo
  have hxa : |x| ≤ 1 := by
    rw [abs_of_nonneg hx0]
    linarith
  have hb := abs_le.mp (Real.cos_bound hxa)
  rw [abs_of_nonneg hx0] at hb
  have h2 : x ^ 2 ≤ hi ^ 2 := pow_le_pow_left hx0 hhi 2
  have h2l : lo ^ 2 ≤ x ^ 2 := pow_le_pow_left h0 hlo 2
  have h4 : x ^ 4 ≤ hi ^ 4 := pow_le_pow_left hx0 hhi 4
  have h40 : 0 ≤ x ^ 4 := pow_nonneg hx0 4
  constructor <;> linarith [hb.1, hb.2]

theorem le_sqrt_of_sq {q a : ℝ} (hq : 0 ≤ q) (h : q ^ 2 ≤ a) : q ≤ Real.sqrt a := by
  have hs := Real.sqrt_le_sqrt h
  rwa [Real.sqrt_sq hq] at hs

theorem sqrt_le_of_sq {q a : ℝ} (hq : 0 ≤ q) (h : a ≤ q ^ 2) : Real.sqrt a ≤ q := by
  have hs := Real.sqrt_le_sqrt h
  rwa [Real.sqrt_sq hq] at hs

theorem arctan_le_self {t : ℝ} (h : 0 ≤ t) : Real.arctan t ≤ t := by
  have h1 : 0 ≤ Real.arctan t := arctan_nonneg h
  have h2 : Real.arctan t < π / 2 := Real.arctan_lt_pi_div_two t
  have h3 := Real.le_tan h1 h2
  rwa [Real.tan_arctan] at h3

theorem arctan_ge_sub_cube {t : ℝ} (h : 0 ≤ t) : t - t ^ 3 / 2 ≤ Real.arctan t := by
  have hsin := Real.sin_arctan t
  have hle : Real.sin (Real.arctan t) ≤ Real.arctan t := Real.sin_le (arctan_nonneg h)
  rw [hsin] at hle
  have hs2 : Real.sqrt (1 + t ^ 2) ≤ 1 + t ^ 2 / 2 := by
    have hsq : (1 : ℝ) + t ^ 2 ≤ (1 + t ^ 2 / 2) ^ 2 := by nlinarith [sq_nonneg (t ^ 2)]
    have hs := Real.sqrt_le_sqrt hsq
    rwa [Real.sqrt_sq (by positivity)] at hs
  have hpos : 0 < Real.sqrt (1 + t ^ 2) := Real.sqrt_pos.mpr (by positivity)
  have hd : t / (1 + t ^ 2 / 2) ≤ t / Real.sqrt (1 + t ^ 2) := by
    apply div_le_div_of_nonneg_left h hpos hs2
  have hfinal : t - t ^ 3 / 2 ≤ t / (1 + t ^ 2 / 2) := by
    rw [le_div_iff (by positivity : (0 : ℝ) < 1 + t ^ 2 / 2)]
    nlinarith [pow_nonneg h 5, pow_nonneg h 3]
  linarith

theorem haversine_a_bounds {s1 s2 c1 c2 : ℝ}
    (hs1L : (0.0004021 : ℝ) ≤ s1) (hs1H : s1 ≤ 0.0004024)
    (hs2L : (0.0001822 : ℝ) ≤ s2) (hs2H : s2 ≤ 0.0001825)
    (hc1L : (0.7342 : ℝ) ≤ c1) (hc1H : c1 ≤ 0.7609)
    (hc2L : (0.7336 : ℝ) ≤ c2) (hc2H : c2 ≤ 0.7604) :
    (1.7955e-7 : ℝ) ≤ s1 * s1 + c1 * c2 * s2 * s2 ∧
    s1 * s1 + c1 * c2 * s2 * s2 ≤ 1.8121e-7 := by
  have hs1sqL : (1.6168e-7 : ℝ) ≤ s1 * s1 := by nlinarith
  have hs1sqH : s1 * s1 ≤ 1.6193e-7 := by nlinarith
  have hs2sqL : (3.3196e-8 : ℝ) ≤ s2 * s2 := by nlinarith
  have hs2sqH : s2 * s2 ≤ 3.3307e-8 := by nlinarith
  have hccL : (0.5386 : ℝ) ≤ c1 * c2 := by nlinarith
  have hccH : c1 * c2 ≤ 0.5786 := by nlinarith
  have ha2L : (1.7879e-8 : ℝ) ≤ c1 * c2 * s2 * s2 := by nlinarith
  have ha2H : c1 * c2 * s2 * s2 ≤ 1.9272e-8 := by nlinarith
  constructor <;> linarith

theorem atan2_sqrt_bounds {a : ℝ} (haL : (1.7955e-7 : ℝ) ≤ a) (haH : a ≤ 1.8121e-7) :
    (0.0004229 : ℝ) ≤ atan2 (Real.sqrt a) (Real.sqrt (1 - a)) ∧
    atan2 (Real.sqrt a) (Real.sqrt (1 - a)) ≤ 0.0004263 := by
  have hy1 : (0.000423 : ℝ) ≤ Real.sqrt a := le_sqrt_of_sq (by norm_num)
    (le_trans (by norm_num) haL)
  have hy2 : Real.sqrt a ≤ 0.0004258 := sqrt_le_of_sq (by norm_num)
    (le_trans haH (by norm_num))
  have hxb1 : (0.999 : ℝ) ≤ Real.sqrt (1 - a) := le_sqrt_of_sq (by norm_num) (by nlinarith)
  have hxb2 : Real.sqrt (1 - a) ≤ 1 := by
    have h1a : 1 - a ≤ (1 : ℝ) ^ 2 := by nlinarith
    exact sqrt_le_of_sq (by norm_num) h1a
  have hxpos : (0 : ℝ) < Real.sqrt (1 - a) := lt_of_lt_of_le (by norm_num) hxb1
  have hat : atan2 (Real.sqrt a) (Real.sqrt (1 - a)) =
      Real.arctan (Real.sqrt a / Real.sqrt (1 - a)) := by
    unfold atan2
    rw [if_pos hxpos]
  rw [hat]
  have htL : (0.000423 : ℝ) ≤ Real.sqrt a / Real.sqrt (1 - a) := by
    rw [le_div_iff hxpos]
    nlinarith
  have htH : Real.sqrt a / Real.sqrt (1 - a) ≤ 0.0004263 := by
    rw [div_le_iff hxpos]
    nlinarith
  have ht0 : (0 : ℝ) ≤ Real.sqrt a / Real.sqrt (1 - a) := le_trans (by norm_num) htL
  have h1 := arctan_ge_sub_cube ht0
  have h3 : (Real.sqrt a / Real.sqrt (1 - a)) ^ 3 ≤ (0.0004263 : ℝ) ^ 3 :=
    pow_le_pow_left ht0 htH 3
  have hup := arctan_le_self ht0
  constructor
  · nlinarith
  · linarith

/-- Rational bounds for the Haversine distance between the two stops of
the worked example, (40.7128, -74.0060) and (40.7589, -73.9851): the
distance lies between 5388 and 5432 meters. -/
theorem haversineAB_bounds :
    5388 ≤ calculateHaversineDistance 40.7128 (-74.0060) 40.7589 (-73.9851) ∧
    calculateHaversineDistance 40.7128 (-74.0060) 40.7589 (-73.9851) ≤ 5432 := by
  have hpiL : (3.141592 : ℝ) < π := Real.pi_gt_d6
  have hpiH : π < 3.141593 := Real.pi_lt_d6
  have hx1L : (0.0004022 : ℝ) ≤ (40.7589 - 40.7128) * (π / 180) / 2 := by nlinarith
  have hx1H : (40.7589 - 40.7128) * (π / 180) / 2 ≤ 0.0004023 := by nlinarith
  have hx2L : (0.0001823 : ℝ) ≤ (-73.9851 - -74.0060) * (π / 180) / 2 := by nlinarith
  have hx2H : (-73.9851 - -74.0060) * (π / 180) / 2 ≤ 0.0001824 := by nlinarith
  have hf1L : (0.7105 : ℝ) ≤ 40.7128 * (π / 180) := by nlinarith
  have hf1H : 40.7128 * (π / 180) ≤ 0.7106 := by nlinarith
  have hf2L : (0.7113 : ℝ) ≤ 40.7589 * (π / 180) := by nlinarith
  have hf2H : 40.7589 * (π / 180) ≤ 0.7114 := by nlinarith
  clear hpiL hpiH
  obtain ⟨hs1a, hs1b⟩ := sin_interval hx1L hx1H (by norm_num) (by norm_num)
  obtain ⟨hs2a, hs2b⟩ := sin_interval hx2L hx2H (by norm_num) (by norm_num)
  obtain ⟨hc1a, hc1b⟩ := cos_interval hf1L hf1H (by norm_num) (by norm_num)
  obtain ⟨hc2a, hc2b⟩ := cos_interval hf2L hf2H (by norm_num) (by norm_num)
  have hs1L : (0.0004021 : ℝ) ≤ Real.sin ((40.7589 - 40.7128) * (π / 180) / 2) :=
    le_trans (by norm_num) hs1a
  have hs1H : Real.sin ((40.7589 - 40.7128) * (π / 180) / 2) ≤ 0.0004024 :=
    le_trans hs1b (by norm_num)
  have hs2L : (0.0001822 : ℝ) ≤ Real.sin ((-73.9851 - -74.0060) * (π / 180) / 2) :=
    le_trans (by norm_num) hs2a
  have hs2H : Real.sin ((-73.9851 - -74.0060) * (π / 180) / 2) ≤ 0.0001825 :=
    le_trans hs2b (by norm_num)
  have hc1L : (0.7342 : ℝ) ≤ Real.cos (40.7128 * (π / 180)) := le_trans (by norm_num) hc1a
  have hc1H : Real.cos (40.7128 * (π / 180)) ≤ 0.7609 := le_trans hc1b (by norm_num)
  have hc2L : (0.7336 : ℝ) ≤ Real.cos (40.7589 * (π / 180)) := le_trans (by norm_num) hc2a
  have hc2H : Real.cos (40.7589 * (π / 180)) ≤ 0.7604 := le_trans hc2b (by norm_num)
  clear hs1a hs1b hs2a hs2b hc1a hc1b hc2a hc2b hx1L hx1H hx2L hx2H hf1L hf1H hf2L hf2H
  obtain ⟨haL, haH⟩ := haversine_a_bounds hs1L hs1H hs2L hs2H hc1L hc1H hc2L hc2H
  obtain ⟨hatL, hatH⟩ := atan2_sqrt_bounds haL haH
  simp only [calculateHaversineDistance, toRadians]
  constructor <;> nlinarith [hatL, hatH]

/-- First stop of the worked example. -/
def stopA : Stop := { latitude := 40.7128, longitude := -74.0060, address := "A" }

/-- Second stop of the worked example. -/
def stopB : Stop := { latitude := 40.7589, longitude := -73.9851, address := "B" }

theorem stopDistanceAB_bounds :
    5388 ≤ stopDistance stopA stopB ∧ stopDistance stopA stopB ≤ 5432 :=
  haversineAB_bounds

theorem mock_AB_distance (now : ℤ) :
    (getMockOptimizedRoute now [stopA, stopB]).totalDistance =
      ((round (stopDistance stopA stopB) : ℤ) : ℝ) := by
  simp only [getMockOptimizedRoute]
  rw [if_neg (by norm_num)]
  have ho : optimizeStopOrder [stopA, stopB] = [stopA, stopB] := rfl
  show ((round (mockLoop stopDistance now 0 0 (optimizeStopOrder [stopA, stopB])).1 : ℤ) : ℝ) = _
  rw [ho, (mockLoop_totals stopDistance now [stopA, stopB] 0 0).1]
  simp [legDistanceSum]

theorem mock_AB_duration (now : ℤ) :
    (getMockOptimizedRoute now [stopA, stopB]).totalDuration =
      (((round (stopDistance stopA stopB / 1000 * 2) + 5) * 60 : ℤ) : ℝ) := by
  simp only [getMockOptimizedRoute]
  rw [if_neg (by norm_num)]
  have ho : optimizeStopOrder [stopA, stopB] = [stopA, stopB] := rfl
  show (((mockLoop stopDistance now 0 0 (optimizeStopOrder [stopA, stopB])).2.1 * 60 : ℤ) : ℝ) = _
  rw [ho, (mockLoop_totals stopDistance now [stopA, stopB] 0 0).2]
  have hleg : mockLegMinutes stopDistance [stopA, stopB] =
      round (stopDistance stopA stopB / 1000 * 2) + 5 := by
    show (round (stopDistance stopA stopB / 1000 * 2) + 5) +
      mockLegMinutes stopDistance [stopB] = _
    show (round (stopDistance stopA stopB / 1000 * 2) + 5) + 0 = _
    ring
  rw [hleg]
  push_cast
  ring

theorem round_AB_bounds :
    5388 ≤ round (stopDistance stopA stopB) ∧ round (stopDistance stopA stopB) ≤ 5432 := by
  obtain ⟨hL, hH⟩ := stopDistanceAB_bounds
  rw [round_eq]
  constructor
  · exact Int.le_floor.mpr (by push_cast; linarith)
  · have hlt : ⌊stopDistance stopA stopB + 1 / 2⌋ < 5433 :=
      Int.floor_lt.mpr (by push_cast; linarith)
    omega

theorem round_AB_leg_minutes : round (stopDistance stopA stopB / 1000 * 2) = 11 := by
  obtain ⟨hL, hH⟩ := stopDistanceAB_bounds
  rw [round_eq]
  rw [Int.floor_eq_iff]
  constructor
  · push_cast
    linarith
  · push_cast
    linarith

/-- C9 counterexample: the fallback's total distance for the worked
two-stop example is the rounded Haversine distance, which lies between
5388 and 5432 meters; it is not within 50 meters of 5750 as the claim
states. -/
theorem example_distance_not_5750 :
    ¬ |(getMockOptimizedRoute 0 [stopA, stopB]).totalDistance - 5750| ≤ 50 := by
  rw [mock_AB_distance 0]
  intro habs
  have h1 := (abs_le.mp habs).1
  have h2 : ((round (stopDistance stopA stopB) : ℤ) : ℝ) ≤ 5432 := by
    exact_mod_cast round_AB_bounds.2
  linarith

/-- C9 amended: for the two-stop example with no provider configured the
fallback returns the order A, B unchanged, a total distance within 50
meters of 5420 (not 5750), and a total duration of exactly 960 seconds,
which is the step-4 formula value: the rounded 2-minutes-per-kilometer
travel time (11 minutes) plus one 5-minute dwell, converted to
seconds. -/
theorem example_route_metrics (now : ℤ) :
    (getMockOptimizedRoute now [stopA, stopB]).waypoints.map Waypoint.toStop =
      [stopA, stopB] ∧
    |(getMockOptimizedRoute now [stopA, stopB]).totalDistance - 5420| ≤ 50 ∧
    (getMockOptimizedRoute now [stopA, stopB]).totalDuration = 960 := by
  refine ⟨?_, ?_, ?_⟩
  · simp only [getMockOptimizedRoute]
    rw [if_neg (by norm_num)]
    show ((mockLoop stopDistance now 0 0 (optimizeStopOrder [stopA, stopB])).2.2.map
      Waypoint.toStop) = _
    have ho : optimizeStopOrder [stopA, stopB] = [stopA, stopB] := rfl
    rw [ho, mockLoop_waypoints]
  · rw [mock_AB_distance now]
    obtain ⟨hL, hH⟩ := round_AB_bounds
    have hLr : (5388 : ℝ) ≤ ((round (stopDistance stopA stopB) : ℤ) : ℝ) := by
      exact_mod_cast hL
    have hHr : ((round (stopDistance stopA stopB) : ℤ) : ℝ) ≤ 5432 := by
      exact_mod_cast hH
    rw [abs_le]
    constructor <;> linarith
  · rw [mock_AB_duration now, round_AB_leg_minutes]
    norm_num

end Traffic
